import Mathlib

/-!
Verification development for the `emzedeyedee` mirroring / validation pipeline
(sources: `gatherMzid.py`, `report.py`, `schema_validate.py`,
`validate_schemas.py`).

Shallow-embedding conventions used throughout:

* Python byte strings are `List ℕ`; Python text is a Lean `String` or a
  `List Char` (the latter wherever a proof needs kernel evaluation).
* Python `float` arithmetic is modelled as exact rational arithmetic (`ℚ`).
  Every division performed by the modelled code divides by a power of two, so
  for inputs below `2 ^ 53` the Python doubles are exact and the model agrees
  with the code.  Python's `f"{x:.1f}"` formatting rounds to one decimal with
  ties to even; it is modelled by `Py.round1`.
* Filesystem and network effects are modelled by explicit state passing; the
  outcome of each network attempt, worker run or validation call is supplied
  by an explicit oracle argument.
* Loops whose exit is data dependent are written with an explicit fuel
  argument so that every definition stays structurally recursive and kernel
  computable; the fuel is always instantiated large enough that the
  exhaustion branch is unreachable.
-/

namespace Py

/-- Python's `str.split` whitespace set (ASCII part): space, tab, newline,
carriage return, vertical tab, form feed. -/
def isPySpace (c : Char) : Bool :=
  c = ' ' || c = '\t' || c = '\n' || c = '\r' || c = '\x0b' || c = '\x0c'

/-- Python `s.split(None, maxsplit)` on a character list (`budget = some k`
models `maxsplit = k`; `budget = none` models no limit).  Runs of whitespace
separate words; once the budget is exhausted the remainder (from its first
non-whitespace character, keeping trailing whitespace) is one final part.
`fuel` only forces structural recursion; any `fuel > s.length` is exact. -/
def splitWs (budget : Option ℕ) : ℕ → List Char → List (List Char)
  | 0, _ => []
  | fuel + 1, s =>
    if s.dropWhile isPySpace = [] then []
    else if budget = some 0 then [s.dropWhile isPySpace]
    else
      (s.dropWhile isPySpace).takeWhile (fun c => !isPySpace c) ::
        splitWs (budget.map (· - 1)) fuel
          ((s.dropWhile isPySpace).dropWhile (fun c => !isPySpace c))

/-- Lower-casing of a character list (Python `str.lower` restricted to the
ASCII range, which is all the code compares). -/
def lowerL (s : List Char) : List Char := s.map Char.toLower

/-- Lower-casing of a `String`. -/
def lowerStr (s : String) : String := String.mk (lowerL s.toList)

/-- Python `hay.endswith(suffix)` on strings. -/
def endsWithPy (hay suffix : String) : Bool := decide (suffix.toList <:+ hay.toList)

/-- Python `needle in hay` (substring test) on strings. -/
def containsPy (hay needle : String) : Bool := decide (needle.toList <:+: hay.toList)

/-- Python `s.split(sep)` for a one-character separator (keeps empty parts),
used for `url.split("/")`.  Structural fuel as in `splitWs`. -/
def splitChar (sep : Char) : ℕ → List Char → List (List Char)
  | 0, _ => [[]]
  | fuel + 1, s =>
    let w := s.takeWhile (fun c => c ≠ sep)
    match s.dropWhile (fun c => c ≠ sep) with
    | [] => [w]
    | _ :: rest => w :: splitChar sep fuel rest

/-- Round half to even, Python's rounding mode for `f"{x:.1f}"`. -/
def roundHalfEven (q : ℚ) : ℤ :=
  if q - ⌊q⌋ < 1 / 2 then ⌊q⌋
  else if 1 / 2 < q - ⌊q⌋ then ⌊q⌋ + 1
  else if Even ⌊q⌋ then ⌊q⌋ else ⌊q⌋ + 1

/-- Numeric value printed by `f"{x:.1f}"`: `x` rounded to one decimal place. -/
def round1 (q : ℚ) : ℚ := (roundHalfEven (10 * q) : ℚ) / 10

/-- Python `int()` applied to a float/rational: truncation toward zero. -/
def pyInt (q : ℚ) : ℤ := if 0 ≤ q then ⌊q⌋ else ⌈q⌉

/-- Python truthiness of an optional string: `None` and `""` are falsy. -/
def pyTruthy (o : Option String) : Bool :=
  match o with
  | none => false
  | some s => s ≠ ""

end Py

namespace Report

/-! Model of `src/report.py`. -/

/-- The tail kept between chunks in `contains_string` (src/report.py:86):
`prev_tail = chunk[-overlap:] if len(chunk) > overlap else chunk`.
Python's `chunk[-0:]` is the whole chunk, hence the `overlap = 0` case. -/
def tailSlice (overlap : ℕ) (chunk : List ℕ) : List ℕ :=
  if overlap < chunk.length then
    if overlap = 0 then chunk else chunk.drop (chunk.length - overlap)
  else chunk

/-- The read/search loop of `contains_string` (src/report.py:78-87).
`l` is the unread remainder of the file, `pt` the tail kept from the previous
chunk; each iteration reads `l.take n` (`f.read(chunk_size)`), searches
`pt ++ chunk` and continues with `tailSlice ov chunk`.  An empty read ends
the loop with `false`.  `fuel` only forces structural recursion; any
`fuel > l.length` is exact because each iteration consumes at least one
byte. -/
def containsGo (marker : List ℕ) (ov n : ℕ) : ℕ → List ℕ → List ℕ → Bool
  | 0, _, _ => false
  | fuel + 1, pt, l =>
    if n = 0 ∨ l = [] then false
    else
      if marker <:+: pt ++ l.take n then true
      else containsGo marker ov n fuel (tailSlice ov (l.take n)) (l.drop n)

/-- `contains_string(file_path, search_string, chunk_size)`
(src/report.py:71-90) with the file contents given explicitly as bytes.
The overlap is `len(search_bytes) - 1`. -/
def contains_string (file marker : List ℕ) (chunk_size : ℕ) : Bool :=
  containsGo marker (marker.length - 1) chunk_size (file.length + 1) [] file

/-- One step of the unit loop of `format_file_size` (src/report.py:22-28):
try each unit in order, returning when `abs(size_bytes) < 1024`, else divide
by 1024; after the list is exhausted the value is printed in `"PB"`.  The
formatted string is represented by its numeric value and its unit suffix. -/
def format_go : ℚ → List String → ℚ × String
  | q, [] => (Py.round1 q, "PB")
  | q, u :: rest =>
    if |q| < 1024 then (if u = "B" then (q, "B") else (Py.round1 q, u))
    else format_go (q / 1024) rest

/-- `format_file_size(size_bytes)` (src/report.py:22-28) for a natural byte
count, as (numeric value of the printed number, unit suffix).  For `"B"` the
number is printed as a plain integer, otherwise with one decimal place. -/
def format_file_size (n : ℕ) : ℚ × String :=
  format_go (n : ℚ) ["B", "KB", "MB", "GB", "TB"]

/-- Unit exponent chosen by `format_file_size`: the printed value is
`n / 1024 ^ sizeExp n` (capped at the `"PB"` exponent 5). -/
def sizeExp (n : ℕ) : ℕ :=
  if n < 1024 then 0
  else if n < 1024 ^ 2 then 1
  else if n < 1024 ^ 3 then 2
  else if n < 1024 ^ 4 then 3
  else if n < 1024 ^ 5 then 4
  else 5

/-- `is_archive(filename)` (src/report.py:65-68). -/
def is_archive (filename : String) : Bool :=
  let lower := Py.lowerStr filename
  Py.endsWithPy lower ".zip" || Py.endsWithPy lower ".gz" || Py.endsWithPy lower ".gzip"

/-- Python `dirpath.rstrip("/")`. -/
def rstripSlash (s : String) : String :=
  String.mk ((s.toList.reverse.dropWhile (· = '/')).reverse)

/-- The project component of `parse_directory(dirpath)` (src/report.py:44-62):
the last `/`-separated component when there are at least three components,
otherwise the whole path.  (The date component only feeds the ledger's `date`
column and does not affect row identity, so it is not modelled.) -/
def parse_directory_project (dirpath : String) : String :=
  let parts := (rstripSlash dirpath).splitOn "/"
  if 3 ≤ parts.length then parts.getLastD dirpath else dirpath

/-- A ledger row key: `(project, file_name)`.  `load_existing_report`
(src/report.py:147-159) reduces the existing ledger to exactly this set of
keys, and row identity in `generate_report` is decided by it alone. -/
abbrev RowKey := String × String

/-- The per-file body of the walk in `generate_report` (src/report.py:174-225)
restricted to row identity: skip the ledger file itself, skip archives, skip
keys already present; otherwise append the key of the new row. -/
def report_new_rows (mirror : List (String × String)) (existing : List RowKey) :
    List RowKey :=
  mirror.filterMap fun df =>
    if df.2 = "report.csv" then none
    else if is_archive df.2 then none
    else if (parse_directory_project df.1, df.2) ∈ existing then none
    else some (parse_directory_project df.1, df.2)

/-- `generate_report()` (src/report.py:162-227) at the level of row keys: the
ledger file is opened in append mode, so the resulting ledger is the old rows
followed by the newly produced rows.  `mirror` lists the walked
`(dirpath, filename)` pairs; `ledger` is the existing ledger's row keys. -/
def generate_report (mirror : List (String × String)) (ledger : List RowKey) :
    List RowKey :=
  ledger ++ report_new_rows mirror ledger

end Report

namespace GatherMzid

/-! Model of `src/gatherMzid.py`. -/

/-- The per-line selection of `fetch_project` (src/gatherMzid.py:48-60):
select a line when it starts with `'-'` and the lower-cased **line** contains
`"mzid"`; then split the line on whitespace into at most 9 fields, require at
least 9, take the 9th field (the file name, possibly containing spaces) and
drop it again when its lower-cased form ends with `".mgf"`.  Returns the
selected file name. -/
def selectLine (line : List Char) : Option (List Char) :=
  if line.headD ' ' = '-' ∧ "mzid".toList <:+: Py.lowerL line then
    if 9 ≤ (Py.splitWs (some 8) (line.length + 1) line).length then
      if ".mgf".toList <:+
          Py.lowerL ((Py.splitWs (some 8) (line.length + 1) line).getD 8 []) then none
      else some ((Py.splitWs (some 8) (line.length + 1) line).getD 8 [])
    else none
  else none

/-- Outcome of one download attempt of `fetch_file`'s retry loop
(src/gatherMzid.py:73-113), as seen at the `try` block: either the whole file
is streamed, or an `ftplib.error_perm` is raised after `k` bytes were
written, or a transient error (`ConnectionResetError`, `OSError`, `EOFError`,
`ftplib.error_temp`) is raised after `k` bytes were written. -/
inductive AttemptOutcome where
  | ok : AttemptOutcome
  | permError (k : ℕ) : AttemptOutcome
  | transientError (k : ℕ) : AttemptOutcome
deriving DecidableEq

/-- Result of a `fetch_file` call: returned after the local-path check
(`skipped`), returned after a successful transfer (`ok`), re-raised
`ftplib.error_perm` (`permRaised`), transient error re-raised once
`max_retries` is reached (`transientRaised`), the `error_temp` raised after
the loop (src/gatherMzid.py:115, `exhausted`), or the model's oracle ran out
while the loop would retry (`pending`). -/
inductive FetchResult where
  | skipped | ok | permRaised | transientRaised | exhausted | pending
deriving DecidableEq

/-- Association-list lookup for the modelled filesystem. -/
def fsGet : List (String × List ℕ) → String → Option (List ℕ)
  | [], _ => none
  | (q, c) :: rest, p => if q = p then some c else fsGet rest p

/-- Remove every binding of `p` (models `os.remove`). -/
def fsRemove (fs : List (String × List ℕ)) (p : String) : List (String × List ℕ) :=
  fs.filter fun e => e.1 ≠ p

/-- Write `c` at `p` (models `open(path, 'wb')` plus the writes). -/
def fsSet (fs : List (String × List ℕ)) (p : String) (c : List ℕ) :
    List (String × List ℕ) :=
  (p, c) :: fsRemove fs p

/-- Download state: the local filesystem and the number of FTP sessions
opened so far (each loop iteration calls `get_ftp_login` once). -/
structure FetchState where
  fs : List (String × List ℕ)
  requests : ℕ
deriving DecidableEq

/-- The retry loop of `fetch_file` (src/gatherMzid.py:73-115).  `attempt` is
the loop counter, `outcomes` the oracle giving each attempt's result.  On
success the complete `data` is at `path`; on either error the written bytes
`data.take k` are removed again by `_cleanup_partial_file`
(src/gatherMzid.py:118-125, modelled as always succeeding); a transient error
re-raises once `max_retries ≠ 0 ∧ attempt + 1 ≥ max_retries`, otherwise the
loop retries after a backoff sleep (sleeps are not modelled). -/
def fetchLoop (path : String) (data : List ℕ) (max_retries : ℕ) :
    List AttemptOutcome → ℕ → FetchState → FetchState × FetchResult
  | [], attempt, st =>
    if max_retries = 0 ∨ attempt < max_retries then (st, .pending) else (st, .exhausted)
  | .ok :: _, attempt, st =>
    if max_retries = 0 ∨ attempt < max_retries then
      ({ fs := fsSet st.fs path data, requests := st.requests + 1 }, .ok)
    else (st, .exhausted)
  | .permError k :: _, attempt, st =>
    if max_retries = 0 ∨ attempt < max_retries then
      ({ fs := fsRemove (fsSet st.fs path (data.take k)) path,
         requests := st.requests + 1 }, .permRaised)
    else (st, .exhausted)
  | .transientError k :: rest, attempt, st =>
    if max_retries = 0 ∨ attempt < max_retries then
      if max_retries ≠ 0 ∧ max_retries ≤ attempt + 1 then
        ({ fs := fsRemove (fsSet st.fs path (data.take k)) path,
           requests := st.requests + 1 }, .transientRaised)
      else
        fetchLoop path data max_retries rest (attempt + 1)
          { fs := fsRemove (fsSet st.fs path (data.take k)) path,
            requests := st.requests + 1 }
    else (st, .exhausted)

/-- `fetch_file(ymp, file_name, max_retries)` (src/gatherMzid.py:62-115) for
one target: if `path` already exists locally the call returns immediately
without opening any FTP session, otherwise it runs the retry loop.  `data` is
the remote file's content, `outcomes` the network oracle. -/
def fetch_file (st : FetchState) (path : String) (data : List ℕ)
    (outcomes : List AttemptOutcome) (max_retries : ℕ) : FetchState × FetchResult :=
  if (fsGet st.fs path).isSome then (st, .skipped)
  else fetchLoop path data max_retries outcomes 0 st

end GatherMzid

namespace SchemaValidate

/-! Model of `src/schema_validate.py`. -/

/-- The modelled Python exception classes that can cross the
`schema_validate_with_messages` boundary into `validate_schemas`. -/
inductive ExcClass where
  | mpTimeoutError
  | builtinTimeoutError
  | memoryError (msg : String)
  | eofError (msg : String)
  | brokenPipeError (msg : String)
  | connectionResetError (msg : String)
  | otherExc (typeName msg : String)
deriving DecidableEq

/-- Python `type(e).__name__` for each modelled class. -/
def excTypeName : ExcClass → String
  | .mpTimeoutError => "TimeoutError"
  | .builtinTimeoutError => "TimeoutError"
  | .memoryError _ => "MemoryError"
  | .eofError _ => "EOFError"
  | .brokenPipeError _ => "BrokenPipeError"
  | .connectionResetError _ => "ConnectionResetError"
  | .otherExc tn _ => tn

/-- Python `str(e)` for each modelled class.  `AsyncResult.get` raises
`multiprocessing.TimeoutError` bare (`raise TimeoutError`), so its `str` is
empty. -/
def excStr : ExcClass → String
  | .mpTimeoutError => ""
  | .builtinTimeoutError => ""
  | .memoryError m => m
  | .eofError m => m
  | .brokenPipeError m => m
  | .connectionResetError m => m
  | .otherExc _ m => m

/-- Whether `except TimeoutError:` (the builtin class, the name in scope in
`schema_validate.py`) catches a raised exception.  In CPython,
`multiprocessing.TimeoutError` derives from `ProcessError → Exception`
(multiprocessing/context.py) while the builtin `TimeoutError` derives from
`OSError`; neither is a subclass of the other, so the clause catches only the
builtin class. -/
def caughtByExceptTimeoutErr : ExcClass → Bool
  | .builtinTimeoutError => true
  | _ => false

/-- The set of supported schema files (src/schema_validate.py:13-19). -/
def SUPPORTED_SCHEMAS : List String :=
  ["mzIdentML1.0.0.xsd", "mzIdentML1.1.0.xsd", "mzIdentML1.1.1.xsd",
   "mzIdentML1.2.0.xsd", "mzIdentML1.3.0.xsd"]

/-- `_extract_schema_version(schema_fname)` (src/schema_validate.py:43-47):
strip the `mzIdentML` front and `.xsd` back when both are present
(`schema_fname[9:-4]`). -/
def extract_schema_version (schema_fname : String) : Option String :=
  if "mzIdentML".toList <+: schema_fname.toList ∧ ".xsd".toList <:+ schema_fname.toList then
    some (String.mk ((schema_fname.toList.drop 9).take (schema_fname.toList.length - 13)))
  else none

/-- An XML document as seen by the validation worker: the two
schema-location attributes of the root element, plus oracles for the outcome
of `etree.XMLSchema(...).validate(xml_doc)` and for the validator's error
log (message, line). -/
structure XmlDoc where
  schemaLocation : Option String
  noNamespaceSchemaLocation : Option String
  validates : String → Bool
  errors : List (String × ℕ)

/-- Return value of the worker including, as a ghost field, which schema
file (if any) the worker attempted to open — `none` means the run returned
before touching any schema file. -/
structure ImplReturn where
  success : Bool
  schema_version : Option String
  messages : List String
  consulted : Option String
deriving DecidableEq

/-- The effective schema location: `xsi:schemaLocation` if truthy, else
`xsi:noNamespaceSchemaLocation` (src/schema_validate.py:64-72; Python's `if
not schema_location` treats both `None` and `""` as absent). -/
def effectiveLocation (doc : XmlDoc) : Option String :=
  if Py.pyTruthy doc.schemaLocation then doc.schemaLocation
  else doc.noNamespaceSchemaLocation

/-- `schema_location.split()` as a list of strings. -/
def wsTokens (s : String) : List String :=
  (Py.splitWs none (s.toList.length + 1) s.toList).map String.mk

/-- `schema_url.split("/")[-1]` (src/schema_validate.py:91). -/
def urlBasename (url : String) : String :=
  String.mk ((Py.splitChar '/' (url.toList.length + 1) url.toList).getLastD [])

/-- The schema directory path prefix used in the not-found message
(src/schema_validate.py:10, 99). -/
def SCHEMA_DIR : String := "../mzIdentML/schema"

/-- `_schema_validate_impl(xml_file)` (src/schema_validate.py:50-116), run on
an already-parsed document.  `store` says which schema files exist on disk.
The even/odd token check is Python's `len(schema_parts) % 2 != 0`; with an
even, nonzero token count the URL is `schema_parts[1]` for exactly two
tokens, else `schema_parts[-1]`.  Zero tokens (a whitespace-only but truthy
location) would make `schema_parts[-1]` raise `IndexError`, modelled as
`.error`. -/
def schema_validate_impl (doc : XmlDoc) (store : String → Bool) :
    Except String ImplReturn :=
  let loc := effectiveLocation doc
  if ¬ Py.pyTruthy loc then
    .ok ⟨false, none, ["No schema location found in the XML document."], none⟩
  else
    let parts := wsTokens (loc.getD "")
    if parts.length % 2 ≠ 0 then
      .ok ⟨false, none, ["Invalid schema location format."], none⟩
    else if parts = [] then .error "IndexError"
    else
      let schema_url := if parts.length = 2 then parts.getD 1 "" else parts.getLastD ""
      let schema_fname := urlBasename schema_url
      let version := extract_schema_version schema_fname
      if schema_fname ∉ SUPPORTED_SCHEMAS then
        .ok ⟨false, version, ["Unsupported schema: " ++ schema_fname], none⟩
      else if store schema_fname then
        if doc.validates schema_fname then .ok ⟨true, version, [], some schema_fname⟩
        else
          .ok ⟨false, version,
            "XML is invalid. First 20 errors:" ::
              (doc.errors.take 20).map
                (fun e => "Error: " ++ e.1 ++ ", Line: " ++ toString e.2),
            some schema_fname⟩
      else
        .ok ⟨false, version,
          ["Schema file not found: " ++ (SCHEMA_DIR ++ "/" ++ schema_fname)],
          some schema_fname⟩

/-- Default validation timeout in seconds (src/schema_validate.py:120). -/
def VALIDATION_TIMEOUT : ℕ := 600

/-- One run of the isolated worker: how long `_schema_validate_impl` takes
and what it returns. -/
structure WorkerRun where
  elapsed : ℕ
  result : Bool × Option String × List String

/-- `schema_validate_with_messages(xml_file, timeout)`
(src/schema_validate.py:123-143).  `async_result.get(timeout=timeout)`
returns the worker's result when it arrives in time and raises
`multiprocessing.TimeoutError` otherwise; the surrounding
`except TimeoutError:` clause handles the raised exception only if its class
is caught by the builtin `TimeoutError` (see `caughtByExceptTimeoutErr`), in
which case the pool is terminated and the timed-out triple is returned.  An
uncaught exception propagates to the caller (`Pool.__exit__` still
terminates the pool on the way out). -/
def schema_validate_with_messages (timeout : ℕ) (w : WorkerRun) :
    Except ExcClass (Bool × Option String × List String) :=
  if w.elapsed ≤ timeout then .ok w.result
  else
    if caughtByExceptTimeoutErr .mpTimeoutError then
      .ok (false, none, ["Validation timed out after " ++ toString timeout ++ "s"])
    else .error .mpTimeoutError

end SchemaValidate

namespace ValidateSchemas

/-! Model of `src/validate_schemas.py`. -/

/-- `parse_file_size(size_str)` (src/validate_schemas.py:33-43) on the
structured form (numeric value, unit suffix) of the size string
`"<number> <unit>"`: units are tried longest first via `endswith`, the
number is scaled by the unit's multiplier and truncated to an int; the
fallback parses the bare number. -/
def parse_file_size (s : ℚ × String) : ℤ :=
  if Py.endsWithPy s.2 "PB" then Py.pyInt (s.1 * 1024 ^ 5)
  else if Py.endsWithPy s.2 "TB" then Py.pyInt (s.1 * 1024 ^ 4)
  else if Py.endsWithPy s.2 "GB" then Py.pyInt (s.1 * 1024 ^ 3)
  else if Py.endsWithPy s.2 "MB" then Py.pyInt (s.1 * 1024 ^ 2)
  else if Py.endsWithPy s.2 "KB" then Py.pyInt (s.1 * 1024)
  else if Py.endsWithPy s.2 "B" then Py.pyInt s.1
  else Py.pyInt s.1

/-- One ledger row as handled by `validate_schemas`
(src/validate_schemas.py:54-155).  `file_size` is kept in the structured
form used by `parse_file_size`; `found` records whether
`find_file_path(project, file_name)` locates the mirrored file. -/
structure VRow where
  project : String
  date : String
  file_name : String
  file_size : ℚ × String
  contains_MS1002511 : String
  parseable : String
  schema_version : String
  schema_valid : String
  error_message : String
  found : Bool

/-- Helper to build a concrete parseable, locatable ledger row with a given
name, structured size and current `schema_valid` verdict. -/
def mkRow (name : String) (size : ℚ × String) (valid : String) : VRow :=
  { project := "proj", date := "", file_name := name, file_size := size,
    contains_MS1002511 := "False", parseable := "True", schema_version := "",
    schema_valid := valid, error_message := "", found := true }

/-- What one call to `schema_validate_with_messages` does for a given row:
either it returns a `(success, schema_version, messages)` triple or it
raises an exception. -/
inductive CallOutcome where
  | returns (res : Bool × Option String × List String)
  | raises (e : SchemaValidate.ExcClass)

/-- The three `continue` guards of the row loop
(src/validate_schemas.py:83-94): unparseable rows, rows whose
`schema_valid` is already `"True"` or `"False"`, and rows whose mirrored
file cannot be found are skipped untouched. -/
def skipRow (r : VRow) : Bool :=
  r.parseable != "True" || (r.schema_valid == "True" || r.schema_valid == "False")
    || !r.found

/-- The memory-failure signature terms of the generic handler
(src/validate_schemas.py:136). -/
def memTerms : List String :=
  ["kill", "memory", "oom", "signal 9", "cannot allocate", "worker"]

/-- `any(term in error_str + error_type for term in ...)` with
`error_str = str(e).lower()` and `error_type = type(e).__name__.lower()`
(src/validate_schemas.py:133-136). -/
def memSignature (e : SchemaValidate.ExcClass) : Bool :=
  memTerms.any fun t =>
    Py.containsPy
      (Py.lowerStr (SchemaValidate.excStr e) ++ Py.lowerStr (SchemaValidate.excTypeName e)) t

/-- `"; ".join(messages) if messages else ""` (src/validate_schemas.py:110). -/
def joinMessages (msgs : List String) : String := String.intercalate "; " msgs

/-- The body of one iteration of the row loop
(src/validate_schemas.py:98-147): how the row is updated and whether the
run halts (`return` after writing the final state).  On a returned triple
the row gets `"timed out"` when the first message mentions it, else
`"True"`/`"False"`; a raised `MemoryError` or pipe-class error, or any other
exception matching `memSignature`, marks the row `"out of memory"` and
halts; any other exception marks the row `"False"` and continues. -/
def processRow (r : VRow) (o : CallOutcome) : VRow × Bool :=
  match o with
  | .returns res =>
    let r₁ := { r with schema_version := (res.2.1).getD "" }
    if res.2.2 ≠ [] ∧ Py.containsPy (Py.lowerStr ((res.2.2).headD "")) "timed out" then
      ({ r₁ with schema_valid := "timed out", error_message := (res.2.2).headD "" }, false)
    else if res.1 then ({ r₁ with schema_valid := "True", error_message := "" }, false)
    else ({ r₁ with schema_valid := "False", error_message := joinMessages res.2.2 }, false)
  | .raises e =>
    match e with
    | .memoryError m =>
      ({ r with schema_valid := "out of memory",
                error_message := "Memory error: " ++ m }, true)
    | .eofError m | .brokenPipeError m | .connectionResetError m =>
      ({ r with schema_valid := "out of memory",
                error_message := "Subprocess killed: " ++ m }, true)
    | ex =>
      if memSignature ex then
        ({ r with schema_valid := "out of memory",
                  error_message := "Memory/process error: " ++ SchemaValidate.excStr ex }, true)
      else
        ({ r with schema_valid := "False",
                  error_message := "Schema validation error: " ++ SchemaValidate.excStr ex }, false)

/-- What the loop leaves a row as when it does not halt there. -/
def stepRow (p : VRow × CallOutcome) : VRow :=
  if skipRow p.1 then p.1 else (processRow p.1 p.2).1

/-- Whether the loop halts at this row. -/
def haltsAt (p : VRow × CallOutcome) : Bool :=
  !skipRow p.1 && (processRow p.1 p.2).2

/-- The row loop of `validate_schemas` (src/validate_schemas.py:82-153),
returning the final persisted row list (the file is rewritten with **all**
rows after every processed row, and also right before a halting `return`,
so the persisted ledger is the processed prefix followed by the untouched
remainder). -/
def runRows : List (VRow × CallOutcome) → List VRow
  | [] => []
  | (r, o) :: rest =>
    if skipRow r then r :: runRows rest
    else
      if (processRow r o).2 then (processRow r o).1 :: rest.map Prod.fst
      else (processRow r o).1 :: runRows rest

/-- `validate_schemas(csv_path, label)` (src/validate_schemas.py:54-155):
read the rows, sort them ascending by `parse_file_size` of the size column
(Python's stable sort), then run the row loop. -/
def validate_schemas (pairs : List (VRow × CallOutcome)) : List VRow :=
  runRows (pairs.mergeSort fun a b =>
    decide (parse_file_size a.1.file_size ≤ parse_file_size b.1.file_size))

end ValidateSchemas

/-! Basic facts about list containment used by several claims. -/

namespace ListFacts

theorem sub_of_take {α : Type} {l₁ l₂ : List α} (h : l₁ <+: l₂) : l₁ <:+: l₂ := by
  obtain ⟨t, ht⟩ := h
  exact ⟨[], t, by simpa using ht⟩

theorem sub_of_drop {α : Type} {l₁ l₂ : List α} (h : l₁ <:+ l₂) : l₁ <:+: l₂ := by
  obtain ⟨s, hs⟩ := h
  exact ⟨s, [], by simpa using hs⟩

theorem append_left_mono {α : Type} {l₁ l₂ : List α} (t : List α) (h : l₁ <+: l₂) :
    t ++ l₁ <+: t ++ l₂ := by
  obtain ⟨u, hu⟩ := h
  exact ⟨u, by rw [List.append_assoc, hu]⟩

theorem append_suffix_mono {α : Type} {l₁ l₂ : List α} (t : List α) (h : l₁ <:+ l₂) :
    l₁ ++ t <:+ l₂ ++ t := by
  obtain ⟨u, hu⟩ := h
  exact ⟨u, by rw [← List.append_assoc, hu]⟩

theorem not_sub_nil {α : Type} {l : List α} (h : l ≠ []) : ¬ l <:+: ([] : List α) := by
  rintro ⟨s, t, hst⟩
  have h1 := List.append_eq_nil.mp hst
  exact h (List.append_eq_nil.mp h1.1).2

/-- An occurrence of `m` inside `a ++ b` either lies inside `a`, or it is an
occurrence inside the last `m.length - 1` elements of `a` followed by `b`. -/
theorem split_occurrence {m a b : List ℕ} (hm : m ≠ [])
    (h : m <:+: a ++ b) :
    m <:+: a ∨ m <:+: a.drop (a.length - (m.length - 1)) ++ b := by
  obtain ⟨s, t, hst⟩ := h
  have hmlen : 0 < m.length := List.length_pos.mpr hm
  rw [List.append_assoc] at hst
  by_cases hc : s.length + m.length ≤ a.length
  · left
    have hs : s.length ≤ a.length := by omega
    have h1 : (a ++ b).drop s.length = a.drop s.length ++ b := by
      rw [List.drop_append_eq_append_drop, Nat.sub_eq_zero_of_le hs, List.drop_zero]
    have h2 : (s ++ (m ++ t)).drop s.length = m ++ t := List.drop_left s (m ++ t)
    have h3 : m ++ t = a.drop s.length ++ b := by rw [← h1, ← hst, h2]
    have h4 : m.length ≤ (a.drop s.length).length := by
      rw [List.length_drop]; omega
    have h5 : m = (a.drop s.length).take m.length := by
      have := congrArg (List.take m.length) h3
      rwa [List.take_left, List.take_append_of_le_length h4] at this
    have h6 : m <+: a.drop s.length := by
      refine ⟨(a.drop s.length).drop m.length, ?_⟩
      nth_rewrite 1 [h5]
      exact List.take_append_drop _ _
    exact (sub_of_take h6).trans (sub_of_drop (List.drop_suffix _ _))
  · right
    set k := a.length - (m.length - 1) with hk
    have hks : k ≤ s.length := by omega
    have hka : k ≤ a.length := by omega
    have h1 : (a ++ b).drop k = a.drop k ++ b := by
      rw [List.drop_append_eq_append_drop, Nat.sub_eq_zero_of_le hka, List.drop_zero]
    have h2 : (s ++ (m ++ t)).drop k = s.drop k ++ (m ++ t) := by
      rw [List.drop_append_eq_append_drop, Nat.sub_eq_zero_of_le hks, List.drop_zero]
    exact ⟨s.drop k, t, by rw [List.append_assoc, ← h2, hst, h1]⟩

end ListFacts

namespace Report

/-! Claim C6: correctness of the chunked, overlap-aware search. -/

theorem tailSlice_suffix (ov : ℕ) (c : List ℕ) : tailSlice ov c <:+ c := by
  unfold tailSlice
  split
  · split
    · exact List.suffix_refl c
    · exact List.drop_suffix _ c
  · exact List.suffix_refl c

theorem lastN_suffix_tailSlice (ov : ℕ) (c : List ℕ) :
    c.drop (c.length - ov) <:+ tailSlice ov c := by
  unfold tailSlice
  split
  · split
    · next hz => rw [hz, Nat.sub_zero, List.drop_length]; exact List.nil_suffix
    · exact List.suffix_refl _
  · next hge =>
    rw [Nat.sub_eq_zero_of_le (Nat.le_of_not_lt hge), List.drop_zero]

theorem containsGo_sound (marker : List ℕ) (ov n : ℕ) :
    ∀ (fuel : ℕ) (pt l : List ℕ),
      containsGo marker ov n fuel pt l = true → marker <:+: pt ++ l := by
  intro fuel
  induction fuel with
  | zero => intro pt l h; simp [containsGo] at h
  | succ f ih =>
    intro pt l h
    rw [containsGo] at h
    split at h
    · exact absurd h (by simp)
    · split at h
      · next hfound =>
        exact hfound.trans (ListFacts.sub_of_take
          (ListFacts.append_left_mono pt ⟨l.drop n, List.take_append_drop n l⟩))
      · have h1 := ih (tailSlice ov (l.take n)) (l.drop n) h
        have h2 : tailSlice ov (l.take n) ++ l.drop n <:+ pt ++ l := by
          have h3 : tailSlice ov (l.take n) ++ l.drop n <:+ l.take n ++ l.drop n :=
            ListFacts.append_suffix_mono _ (tailSlice_suffix ov (l.take n))
          rw [List.take_append_drop] at h3
          exact h3.trans (List.suffix_append pt l)
        exact h1.trans (ListFacts.sub_of_drop h2)

theorem containsGo_complete (marker : List ℕ) (n : ℕ) (hm : marker ≠ []) (hn : 1 ≤ n)
    (hov : marker.length - 1 ≤ n) :
    ∀ (fuel : ℕ) (pt l : List ℕ), l.length < fuel →
      marker <:+: pt ++ l → ¬ marker <:+: pt →
      containsGo marker (marker.length - 1) n fuel pt l = true := by
  intro fuel
  induction fuel with
  | zero => intro pt l hl; omega
  | succ f ih =>
    intro pt l hl hin hpt
    rw [containsGo]
    split
    · next hcase =>
      rcases hcase with hn0 | hnil
      · omega
      · subst hnil; rw [List.append_nil] at hin; exact absurd hin hpt
    · next hcase =>
      have hlnil : l ≠ [] := fun h => hcase (Or.inr h)
      have hlpos : 0 < l.length := List.length_pos.mpr hlnil
      split
      · rfl
      · next hfound =>
        by_cases hsmall : l.length ≤ n
        · rw [List.take_of_length_le hsmall] at hfound
          exact absurd hin hfound
        · have htklen : (l.take n).length = n := by
            rw [List.length_take]; omega
          have hin' : marker <:+: (pt ++ l.take n) ++ l.drop n := by
            rw [List.append_assoc, List.take_append_drop]; exact hin
          rcases ListFacts.split_occurrence hm hin' with hleft | hright
          · exact absurd hleft hfound
          · set ov := marker.length - 1 with hovdef
            have hovn : ov ≤ (l.take n).length := by rw [htklen]; omega
            have hdropeq : (pt ++ l.take n).drop ((pt ++ l.take n).length - ov) =
                (l.take n).drop ((l.take n).length - ov) := by
              rw [List.length_append, List.drop_append_eq_append_drop]
              have e1 : pt.length + (l.take n).length - ov - pt.length =
                  (l.take n).length - ov := by omega
              have e2 : pt.length ≤ pt.length + (l.take n).length - ov := by omega
              rw [List.drop_eq_nil_of_le e2, e1, List.nil_append]
            rw [hdropeq] at hright
            have hsfx : (l.take n).drop ((l.take n).length - ov) ++ l.drop n <:+
                tailSlice ov (l.take n) ++ l.drop n :=
              ListFacts.append_suffix_mono _ (lastN_suffix_tailSlice ov (l.take n))
            have hin2 : marker <:+: tailSlice ov (l.take n) ++ l.drop n :=
              hright.trans (ListFacts.sub_of_drop hsfx)
            have hpt2 : ¬ marker <:+: tailSlice ov (l.take n) := by
              intro hmem
              exact hfound (hmem.trans (ListFacts.sub_of_drop
                ((tailSlice_suffix ov (l.take n)).trans (List.suffix_append pt (l.take n)))))
            apply ih (tailSlice ov (l.take n)) (l.drop n) _ hin2 hpt2
            rw [List.length_drop]; omega

/-- C6 (amended): `contains_string` returns `true` exactly when the marker
occurs in the file's bytes, for every nonempty marker and every chunk size
of at least `marker.length - 1` (so the marker spans at most two read
chunks).  With smaller chunk sizes a marker spanning three or more chunks
can be missed — see the counterexample. -/
theorem contains_string_iff (file marker : List ℕ) (n : ℕ)
    (hm : marker ≠ []) (hn : 1 ≤ n) (hov : marker.length - 1 ≤ n) :
    contains_string file marker n = true ↔ marker <:+: file := by
  constructor
  · intro h
    have := containsGo_sound marker (marker.length - 1) n (file.length + 1) [] file h
    simpa using this
  · intro h
    exact containsGo_complete marker n hm hn hov (file.length + 1) [] file
      (Nat.lt_succ_self _) (by simpa using h) (ListFacts.not_sub_nil hm)

/-- C6 witness: a 2-byte marker spanning the boundary of 3-byte chunks is
found, instantiating `contains_string_iff`. -/
theorem contains_string_iff_witness :
    contains_string [5, 6, 7, 8] [7, 8] 3 = true :=
  (contains_string_iff [5, 6, 7, 8] [7, 8] 3 (by decide) (by decide) (by decide)).mpr
    (by decide)

/-- C6 counterexample: with chunk size 2 a 5-byte marker that occurs in the
file (spanning three chunks) is *not* found, refuting the claim for
arbitrary chunk sizes. -/
theorem contains_string_counterexample :
    contains_string [0, 1, 2, 3, 4] [0, 1, 2, 3, 4] 2 = false ∧
      [0, 1, 2, 3, 4] <:+: [0, 1, 2, 3, 4] := by decide

end Report

namespace Py

/-! Facts about the modelled one-decimal rounding and truncation. -/

theorem roundHalfEven_close (q : ℚ) : |(roundHalfEven q : ℚ) - q| ≤ 1 / 2 := by
  have hf1 : ((⌊q⌋ : ℤ) : ℚ) ≤ q := Int.floor_le q
  have hf2 : q < (⌊q⌋ : ℚ) + 1 := Int.lt_floor_add_one q
  unfold roundHalfEven
  split
  · next h => rw [abs_le]; constructor <;> linarith
  · next h =>
    split
    · next h2 => rw [abs_le]; push_cast; constructor <;> linarith
    · next h2 =>
      split
      · rw [abs_le]; constructor <;> linarith
      · rw [abs_le]; push_cast; constructor <;> linarith

theorem roundHalfEven_nonneg (q : ℚ) (h : 0 ≤ q) : 0 ≤ roundHalfEven q := by
  have hf : 0 ≤ ⌊q⌋ := Int.floor_nonneg.mpr h
  unfold roundHalfEven
  split
  · exact hf
  · split
    · omega
    · split
      · exact hf
      · omega

theorem round1_close (q : ℚ) : |round1 q - q| ≤ 1 / 20 := by
  have h := roundHalfEven_close (10 * q)
  unfold round1
  have he : (roundHalfEven (10 * q) : ℚ) / 10 - q =
      ((roundHalfEven (10 * q) : ℚ) - 10 * q) / 10 := by ring
  rw [he, abs_div, abs_of_pos (by norm_num : (0 : ℚ) < 10)]
  linarith

theorem round1_nonneg (q : ℚ) (h : 0 ≤ q) : 0 ≤ round1 q := by
  unfold round1
  have := roundHalfEven_nonneg (10 * q) (by linarith)
  have : (0 : ℚ) ≤ (roundHalfEven (10 * q) : ℚ) := by exact_mod_cast this
  positivity

/-- Core truncation bound: formatting `n` in the unit `2 ^ E` (one decimal
place) and scaling back recovers `n` to within a tenth of the unit. -/
theorem trunc_round1_close (n : ℕ) (E : ℕ) (hE : 10 ≤ E) :
    (10 : ℤ) * |pyInt (round1 ((n : ℚ) / 2 ^ E) * 2 ^ E) - (n : ℤ)| ≤ 2 ^ E := by
  set q : ℚ := (n : ℚ) / 2 ^ E with hqdef
  have hq0 : 0 ≤ q := by positivity
  have hscale : (0 : ℚ) < 2 ^ E := by positivity
  have hd0 : 0 ≤ round1 q := round1_nonneg q hq0
  have hprod : (0 : ℚ) ≤ round1 q * 2 ^ E := by positivity
  rw [pyInt, if_pos hprod]
  set P : ℤ := ⌊round1 q * 2 ^ E⌋ with hPdef
  have h1 : (P : ℚ) ≤ round1 q * 2 ^ E := Int.floor_le _
  have h2 : round1 q * 2 ^ E < (P : ℚ) + 1 := Int.lt_floor_add_one _
  have h3 := abs_le.mp (round1_close q)
  have hqE : q * 2 ^ E = (n : ℚ) := by
    rw [hqdef]; field_simp
  have hb1 : (P : ℚ) - (n : ℚ) ≤ 2 ^ E / 20 := by
    have := mul_le_mul_of_nonneg_right h3.2 (le_of_lt hscale)
    rw [sub_mul, hqE] at this
    linarith
  have hb2 : (n : ℚ) - (P : ℚ) ≤ 2 ^ E / 20 + 1 := by
    have := mul_le_mul_of_nonneg_right h3.1 (le_of_lt hscale)
    rw [neg_mul, sub_mul, hqE] at this
    linarith
  have hpow : (20 : ℚ) ≤ 2 ^ E := by
    calc (20 : ℚ) ≤ 2 ^ 10 := by norm_num
    _ ≤ 2 ^ E := pow_le_pow_right₀ (by norm_num) hE
  have goalQ : (10 : ℚ) * |(P : ℚ) - (n : ℚ)| ≤ 2 ^ E := by
    rcases abs_cases ((P : ℚ) - (n : ℚ)) with ⟨he, _⟩ | ⟨he, _⟩ <;> rw [he] <;> linarith
  have hcast : ((10 * |P - (n : ℤ)| : ℤ) : ℚ) = 10 * |(P : ℚ) - (n : ℚ)| := by
    push_cast
    ring
  have : ((10 * |P - (n : ℤ)| : ℤ) : ℚ) ≤ ((2 ^ E : ℤ) : ℚ) := by
    rw [hcast]; push_cast; exact goalQ
  exact_mod_cast this

end Py

namespace Report

/-! Evaluation lemmas for `format_go`. -/

theorem format_go_unit (q : ℚ) (u : String) (rest : List String)
    (h0 : 0 ≤ q) (h1 : q < 1024) (hu : u ≠ "B") :
    format_go q (u :: rest) = (Py.round1 q, u) := by
  simp only [format_go]
  rw [if_pos (by rw [abs_of_nonneg h0]; exact h1), if_neg hu]

theorem format_go_unitB (q : ℚ) (rest : List String)
    (h0 : 0 ≤ q) (h1 : q < 1024) :
    format_go q ("B" :: rest) = (q, "B") := by
  simp only [format_go]
  rw [if_pos (by rw [abs_of_nonneg h0]; exact h1)]
  simp

theorem format_go_div (q : ℚ) (u : String) (rest : List String)
    (h0 : 0 ≤ q) (h1 : ¬ q < 1024) :
    format_go q (u :: rest) = format_go (q / 1024) rest := by
  simp only [format_go]
  rw [if_neg (by rw [abs_of_nonneg h0]; exact h1)]

end Report

namespace ValidateSchemas

/-! Claim C7: the size format/parse round trip. -/

theorem parse_eval_B (v : ℚ) : parse_file_size (v, "B") = Py.pyInt v := rfl

theorem parse_eval_KB (v : ℚ) : parse_file_size (v, "KB") = Py.pyInt (v * 1024) := rfl

theorem parse_eval_MB (v : ℚ) : parse_file_size (v, "MB") = Py.pyInt (v * 1024 ^ 2) := rfl

theorem parse_eval_GB (v : ℚ) : parse_file_size (v, "GB") = Py.pyInt (v * 1024 ^ 3) := rfl

theorem parse_eval_TB (v : ℚ) : parse_file_size (v, "TB") = Py.pyInt (v * 1024 ^ 4) := rfl

theorem parse_eval_PB (v : ℚ) : parse_file_size (v, "PB") = Py.pyInt (v * 1024 ^ 5) := rfl

/-- The round-trip bound for one byte count: the error is at most a tenth of
the chosen unit `1024 ^ sizeExp n`. -/
theorem round_trip_bound (n : ℕ) :
    (10 : ℤ) * |parse_file_size (Report.format_file_size n) - (n : ℤ)| ≤
      1024 ^ Report.sizeExp n := by
  have hn0 : (0 : ℚ) ≤ (n : ℚ) := Nat.cast_nonneg n
  have hcond : ∀ j : ℕ, ((n : ℚ) / 1024 ^ j < 1024 ↔ n < 1024 ^ (j + 1)) := by
    intro j
    rw [div_lt_iff (by positivity : (0 : ℚ) < 1024 ^ j), ← pow_succ']
    constructor
    · intro h; exact_mod_cast h
    · intro h; exact_mod_cast h
  have hstart : Report.format_file_size n =
      Report.format_go ((n : ℚ) / 1024 ^ 0) ["B", "KB", "MB", "GB", "TB"] := by
    simp only [Report.format_file_size, pow_zero, div_one]
  have hdivstep : ∀ (j : ℕ) (u : String) (rest : List String), ¬ n < 1024 ^ (j + 1) →
      Report.format_go ((n : ℚ) / 1024 ^ j) (u :: rest) =
        Report.format_go ((n : ℚ) / 1024 ^ (j + 1)) rest := by
    intro j u rest hge
    rw [Report.format_go_div _ _ _ (by positivity) (fun hc => hge ((hcond j).mp hc))]
    rw [div_div, ← pow_succ]
  have hunit : ∀ (j : ℕ) (u : String) (rest : List String), n < 1024 ^ (j + 1) →
      u ≠ "B" →
      Report.format_go ((n : ℚ) / 1024 ^ j) (u :: rest) =
        (Py.round1 ((n : ℚ) / 1024 ^ j), u) :=
    fun j u rest hlt hu =>
      Report.format_go_unit _ _ _ (by positivity) ((hcond j).mpr hlt) hu
  by_cases h0 : n < 1024
  · have hfmt : Report.format_file_size n = ((n : ℚ), "B") := by
      simp only [Report.format_file_size]
      exact Report.format_go_unitB _ _ hn0 (by exact_mod_cast h0)
    rw [hfmt, parse_eval_B, Py.pyInt, if_pos hn0, Int.floor_natCast]
    have hsz : Report.sizeExp n = 0 := by rw [Report.sizeExp, if_pos h0]
    rw [hsz]
    simp
  · have h0' : ¬ n < 1024 ^ (0 + 1) := by rw [zero_add, pow_one]; exact h0
    by_cases h1 : n < 1024 ^ 2
    · have hfmt : Report.format_file_size n = (Py.round1 ((n : ℚ) / 1024 ^ 1), "KB") := by
        rw [hstart, hdivstep 0 _ _ h0', hunit 1 _ _ h1 (by decide)]
      rw [hfmt, parse_eval_KB]
      have e1 : ((1024 : ℚ) ^ 1) = 2 ^ 10 := by norm_num
      have e2 : (1024 : ℚ) = 2 ^ 10 := by norm_num
      rw [e1, e2]
      have hsz : Report.sizeExp n = 1 := by rw [Report.sizeExp, if_neg h0, if_pos h1]
      rw [hsz]
      have e3 : (1024 : ℤ) ^ 1 = 2 ^ 10 := by norm_num
      rw [e3]
      exact Py.trunc_round1_close n 10 (by norm_num)
    · by_cases h2 : n < 1024 ^ 3
      · have hfmt : Report.format_file_size n =
            (Py.round1 ((n : ℚ) / 1024 ^ 2), "MB") := by
          rw [hstart, hdivstep 0 _ _ h0', hdivstep 1 _ _ h1, hunit 2 _ _ h2 (by decide)]
        rw [hfmt, parse_eval_MB]
        have e1 : ((1024 : ℚ) ^ 2) = 2 ^ 20 := by norm_num
        rw [e1]
        have hsz : Report.sizeExp n = 2 := by
          rw [Report.sizeExp, if_neg h0, if_neg h1, if_pos h2]
        rw [hsz]
        have e3 : (1024 : ℤ) ^ 2 = 2 ^ 20 := by norm_num
        rw [e3]
        exact Py.trunc_round1_close n 20 (by norm_num)
      · by_cases h3 : n < 1024 ^ 4
        · have hfmt : Report.format_file_size n =
              (Py.round1 ((n : ℚ) / 1024 ^ 3), "GB") := by
            rw [hstart, hdivstep 0 _ _ h0', hdivstep 1 _ _ h1, hdivstep 2 _ _ h2,
              hunit 3 _ _ h3 (by decide)]
          rw [hfmt, parse_eval_GB]
          have e1 : ((1024 : ℚ) ^ 3) = 2 ^ 30 := by norm_num
          rw [e1]
          have hsz : Report.sizeExp n = 3 := by
            rw [Report.sizeExp, if_neg h0, if_neg h1, if_neg h2, if_pos h3]
          rw [hsz]
          have e3 : (1024 : ℤ) ^ 3 = 2 ^ 30 := by norm_num
          rw [e3]
          exact Py.trunc_round1_close n 30 (by norm_num)
        · by_cases h4 : n < 1024 ^ 5
          · have hfmt : Report.format_file_size n =
                (Py.round1 ((n : ℚ) / 1024 ^ 4), "TB") := by
              rw [hstart, hdivstep 0 _ _ h0', hdivstep 1 _ _ h1, hdivstep 2 _ _ h2,
                hdivstep 3 _ _ h3, hunit 4 _ _ h4 (by decide)]
            rw [hfmt, parse_eval_TB]
            have e1 : ((1024 : ℚ) ^ 4) = 2 ^ 40 := by norm_num
            rw [e1]
            have hsz : Report.sizeExp n = 4 := by
              rw [Report.sizeExp, if_neg h0, if_neg h1, if_neg h2, if_neg h3, if_pos h4]
            rw [hsz]
            have e3 : (1024 : ℤ) ^ 4 = 2 ^ 40 := by norm_num
            rw [e3]
            exact Py.trunc_round1_close n 40 (by norm_num)
          · have hfmt : Report.format_file_size n =
                (Py.round1 ((n : ℚ) / 1024 ^ 5), "PB") := by
              rw [hstart, hdivstep 0 _ _ h0', hdivstep 1 _ _ h1, hdivstep 2 _ _ h2,
                hdivstep 3 _ _ h3, hdivstep 4 _ _ h4]
              rfl
            rw [hfmt, parse_eval_PB]
            have e1 : ((1024 : ℚ) ^ 5) = 2 ^ 50 := by norm_num
            rw [e1]
            have hsz : Report.sizeExp n = 5 := by
              rw [Report.sizeExp, if_neg h0, if_neg h1, if_neg h2, if_neg h3, if_neg h4]
            rw [hsz]
            have e3 : (1024 : ℤ) ^ 5 = 2 ^ 50 := by norm_num
            rw [e3]
            exact Py.trunc_round1_close n 50 (by norm_num)

end ValidateSchemas

namespace GatherMzid

/-! Claims C1 and C2: the no-truncated-file invariant and idempotence of
`fetch_file`. -/

theorem fsGet_fsRemove (fs : List (String × List ℕ)) (p : String) :
    fsGet (fsRemove fs p) p = none := by
  induction fs with
  | nil => rfl
  | cons e rest ih =>
    by_cases h : e.1 = p
    · simp only [fsRemove, List.filter_cons] at ih ⊢
      simp [h]
      simpa [fsRemove] using ih
    · simp only [fsRemove, List.filter_cons] at ih ⊢
      simp only [h, decide_not]
      simp [fsGet, h]
      simpa [fsRemove] using ih

theorem fsGet_fsSet (fs : List (String × List ℕ)) (p : String) (c : List ℕ) :
    fsGet (fsSet fs p c) p = some c := by
  simp [fsSet, fsGet]

theorem fetchLoop_no_truncated (path : String) (data : List ℕ) (mr : ℕ) :
    ∀ (outcomes : List AttemptOutcome) (attempt : ℕ) (st : FetchState),
      fsGet st.fs path = none →
      fsGet (fetchLoop path data mr outcomes attempt st).1.fs path = none ∨
      fsGet (fetchLoop path data mr outcomes attempt st).1.fs path = some data := by
  intro outcomes
  induction outcomes with
  | nil =>
    intro attempt st h
    simp only [fetchLoop]
    split <;> exact Or.inl h
  | cons o rest ih =>
    intro attempt st h
    cases o with
    | ok =>
      simp only [fetchLoop]
      split
      · exact Or.inr (fsGet_fsSet st.fs path data)
      · exact Or.inl h
    | permError k =>
      simp only [fetchLoop]
      split
      · exact Or.inl (fsGet_fsRemove _ path)
      · exact Or.inl h
    | transientError k =>
      simp only [fetchLoop]
      split
      · split
        · exact Or.inl (fsGet_fsRemove _ path)
        · exact ih (attempt + 1) _ (fsGet_fsRemove _ path)
      · exact Or.inl h

/-- C1: for a target path with no pre-existing local file, after `fetch_file`
returns or raises — over any sequence of successful, permanently failing or
transiently failing attempts — the filesystem holds either the complete file
or no file at all at that path, never a truncated one. -/
theorem fetch_file_no_truncated (st : FetchState) (path : String) (data : List ℕ)
    (outcomes : List AttemptOutcome) (mr : ℕ)
    (h : fsGet st.fs path = none) :
    fsGet (fetch_file st path data outcomes mr).1.fs path = none ∨
    fsGet (fetch_file st path data outcomes mr).1.fs path = some data := by
  rw [fetch_file, h]
  simp only [Option.isSome_none, Bool.false_eq_true, if_false]
  exact fetchLoop_no_truncated path data mr outcomes 0 st h

/-- C1 witness: a transient failure that truncates after one byte, then a
success; the invariant holds at the concrete input. -/
theorem fetch_file_no_truncated_witness :
    fsGet (fetch_file ⟨[], 0⟩ "2020/01/PXD1/a.mzid" [1, 2, 3]
        [.transientError 1, .ok] 0).1.fs "2020/01/PXD1/a.mzid" = none ∨
    fsGet (fetch_file ⟨[], 0⟩ "2020/01/PXD1/a.mzid" [1, 2, 3]
        [.transientError 1, .ok] 0).1.fs "2020/01/PXD1/a.mzid" = some [1, 2, 3] :=
  fetch_file_no_truncated ⟨[], 0⟩ _ _ _ 0 rfl

theorem fetchLoop_ok_stores (path : String) (data : List ℕ) (mr : ℕ) :
    ∀ (outcomes : List AttemptOutcome) (attempt : ℕ) (st : FetchState),
      (fetchLoop path data mr outcomes attempt st).2 = .ok →
      fsGet (fetchLoop path data mr outcomes attempt st).1.fs path = some data := by
  intro outcomes
  induction outcomes with
  | nil =>
    intro attempt st h
    simp only [fetchLoop] at h ⊢
    split at h <;> simp_all
  | cons o rest ih =>
    intro attempt st h
    cases o with
    | ok =>
      simp only [fetchLoop] at h ⊢
      split at h
      · next hc => rw [if_pos hc]; exact fsGet_fsSet st.fs path data
      · simp_all
    | permError k =>
      simp only [fetchLoop] at h ⊢
      split at h <;> simp_all
    | transientError k =>
      simp only [fetchLoop] at h ⊢
      split at h
      · next hc =>
        rw [if_pos hc]
        split at h
        · simp_all
        · next hc2 =>
          rw [if_neg hc2]
          exact ih (attempt + 1) _ h
      · simp_all

/-- C2: `fetch_file` is an idempotent no-op on existing targets.  First: if
the local path already holds a file, the call returns immediately with the
state unchanged (in particular `requests` is unchanged: no FTP session is
opened and no transfer is issued) and result `skipped`.  Second: after any
call that succeeds, a repeated call for the same target (any oracle, any
retry setting) is such a no-op, so running the downloader twice fetches the
file at most once. -/
theorem fetch_file_idempotent :
    (∀ (st : FetchState) (path : String) (data : List ℕ)
        (outcomes : List AttemptOutcome) (mr : ℕ) (c : List ℕ),
        fsGet st.fs path = some c →
        fetch_file st path data outcomes mr = (st, .skipped)) ∧
    (∀ (st : FetchState) (path : String) (data : List ℕ)
        (outcomes : List AttemptOutcome) (mr : ℕ)
        (outcomes' : List AttemptOutcome) (mr' : ℕ),
        (fetch_file st path data outcomes mr).2 = .ok →
        fetch_file (fetch_file st path data outcomes mr).1 path data outcomes' mr' =
          ((fetch_file st path data outcomes mr).1, .skipped)) := by
  have hskip : ∀ (st : FetchState) (path : String) (data : List ℕ)
      (outcomes : List AttemptOutcome) (mr : ℕ) (c : List ℕ),
      fsGet st.fs path = some c →
      fetch_file st path data outcomes mr = (st, .skipped) := by
    intro st path data outcomes mr c h
    rw [fetch_file, h]
    rfl
  refine ⟨hskip, ?_⟩
  intro st path data outcomes mr outcomes' mr' h
  have hstored : fsGet (fetch_file st path data outcomes mr).1.fs path = some data := by
    by_cases hex : (fsGet st.fs path).isSome = true
    · rw [fetch_file, if_pos hex] at h
      simp at h
    · rw [fetch_file, if_neg hex] at h ⊢
      exact fetchLoop_ok_stores path data mr outcomes 0 st h
  exact hskip _ path data outcomes' mr' data hstored

/-- C2 witness: a fresh state, one successful download, then a second call
that is skipped with the state unchanged; plus the direct skip case. -/
theorem fetch_file_idempotent_witness :
    fetch_file ⟨[("q", [9])], 3⟩ "q" [7] [.ok] 0 = (⟨[("q", [9])], 3⟩, .skipped) ∧
    fetch_file (fetch_file ⟨[], 0⟩ "q" [7] [.ok] 0).1 "q" [7] [.transientError 0] 5 =
      ((fetch_file ⟨[], 0⟩ "q" [7] [.ok] 0).1, .skipped) :=
  ⟨fetch_file_idempotent.1 _ _ _ _ _ [9] rfl,
    fetch_file_idempotent.2 ⟨[], 0⟩ "q" [7] [.ok] 0 [.transientError 0] 5 (by decide)⟩

end GatherMzid

namespace ListFacts

theorem sub_map {α β : Type} (f : α → β) {l₁ l₂ : List α} (h : l₁ <:+: l₂) :
    l₁.map f <:+: l₂.map f := by
  obtain ⟨s, t, hst⟩ := h
  exact ⟨s.map f, t.map f, by rw [← List.map_append, ← List.map_append, hst]⟩

end ListFacts

namespace Py

/-- Every part produced by `splitWs` is a contiguous piece of the input. -/
theorem splitWs_mem_sub :
    ∀ (fuel : ℕ) (budget : Option ℕ) (s p : List Char),
      p ∈ splitWs budget fuel s → p <:+: s := by
  intro fuel
  induction fuel with
  | zero => intro budget s p h; simp [splitWs] at h
  | succ f ih =>
    intro budget s p h
    rw [splitWs] at h
    have hs' : s.dropWhile isPySpace <:+ s := List.dropWhile_suffix _
    split at h
    · simp at h
    · split at h
      · rw [List.mem_singleton] at h
        subst h
        exact ListFacts.sub_of_drop hs'
      · rcases List.mem_cons.mp h with h | h
        · subst h
          exact (ListFacts.sub_of_take ⟨_, List.takeWhile_append_dropWhile _ _⟩).trans
            (ListFacts.sub_of_drop hs')
        · exact ((ih _ _ p h).trans
            (ListFacts.sub_of_drop (List.dropWhile_suffix _))).trans
            (ListFacts.sub_of_drop hs')

end Py

namespace GatherMzid

/-! Claim C9: the leaf selector of `fetch_project`. -/

/-- C9 (amended): `selectLine` selects exactly the lines that start with the
file flag `'-'`, whose **entire lower-cased line** (not just the file name)
contains `"mzid"`, that split into at least 9 whitespace-separated fields,
and whose file name (the 9th field onward) does not end in `".mgf"` after
lower-casing; the selected name is that 9th field.  In particular (second
conjunct) every file line with at least 9 fields whose *name* contains the
marker and does not end in `".mgf"` is still selected, since the name is a
contiguous piece of the line. -/
theorem selectLine_spec (line f : List Char) :
    (selectLine line = some f ↔
      line.headD ' ' = '-' ∧ "mzid".toList <:+: Py.lowerL line ∧
      9 ≤ (Py.splitWs (some 8) (line.length + 1) line).length ∧
      f = (Py.splitWs (some 8) (line.length + 1) line).getD 8 [] ∧
      ¬ ".mgf".toList <:+ Py.lowerL f) ∧
    (line.headD ' ' = '-' →
      9 ≤ (Py.splitWs (some 8) (line.length + 1) line).length →
      "mzid".toList <:+: Py.lowerL ((Py.splitWs (some 8) (line.length + 1) line).getD 8 []) →
      ¬ ".mgf".toList <:+ Py.lowerL ((Py.splitWs (some 8) (line.length + 1) line).getD 8 []) →
      selectLine line = some ((Py.splitWs (some 8) (line.length + 1) line).getD 8 [])) := by
  constructor
  · unfold selectLine
    split
    · next hc =>
      split
      · next hlen =>
        split
        · next hmgf =>
          constructor
          · intro h; exact absurd h (by simp)
          · rintro ⟨_, _, _, hf, hnm⟩
            exact absurd (hf ▸ hmgf) hnm
        · next hmgf =>
          constructor
          · intro h
            injection h with h'
            exact ⟨hc.1, hc.2, hlen, h'.symm, by rw [← h']; exact hmgf⟩
          · rintro ⟨_, _, _, hf, _⟩
            rw [hf]
      · next hlen =>
        constructor
        · intro h; exact absurd h (by simp)
        · rintro ⟨_, _, hl, _, _⟩; exact absurd hl hlen
    · next hc =>
      constructor
      · intro h; exact absurd h (by simp)
      · rintro ⟨h1, h2, _, _, _⟩; exact absurd ⟨h1, h2⟩ hc
  · intro hhead hlen hname hmgf
    have h8 : 8 < (Py.splitWs (some 8) (line.length + 1) line).length := by omega
    have hmem : (Py.splitWs (some 8) (line.length + 1) line).getD 8 [] ∈
        Py.splitWs (some 8) (line.length + 1) line := by
      rw [List.getD_eq_getElem _ _ h8]
      exact List.getElem_mem h8
    have hsub := Py.splitWs_mem_sub (line.length + 1) (some 8) line _ hmem
    have hline : "mzid".toList <:+: Py.lowerL line :=
      hname.trans (ListFacts.sub_map Char.toLower hsub)
    unfold selectLine
    rw [if_pos ⟨hhead, hline⟩, if_pos hlen, if_neg hmgf]

/-- C9 witness: a genuine mzid file line is selected, via `selectLine_spec`. -/
theorem selectLine_spec_witness :
    selectLine "-rw-r--r-- 1 o g 5 Jan 1 2020 a.mzid".toList =
      some ((Py.splitWs (some 8) ("-rw-r--r-- 1 o g 5 Jan 1 2020 a.mzid".toList.length + 1)
        "-rw-r--r-- 1 o g 5 Jan 1 2020 a.mzid".toList).getD 8 []) :=
  (selectLine_spec "-rw-r--r-- 1 o g 5 Jan 1 2020 a.mzid".toList []).2
    (by decide) (by decide) (by decide) (by decide)

/-- C9 counterexample: the marker is matched against the whole line, so a
line whose owner field is `"mzid"` selects the file `data.txt` even though
the *name* does not contain the marker — refuting the claim that exactly the
marker-carrying names are selected. -/
theorem selectLine_counterexample :
    selectLine "-rw-r--r-- 1 mzid grp 5 Jan 1 2020 data.txt".toList =
        some "data.txt".toList ∧
      ¬ "mzid".toList <:+: Py.lowerL "data.txt".toList := by decide

end GatherMzid

namespace Report

/-! Claim C5: idempotence of the ledger builder. -/

/-- C5: re-running the ledger builder against the same mirror and the ledger
produced by a previous run appends zero new rows, and the resulting ledger
file is unchanged (the file is opened in append mode, so existing rows are
never rewritten; every already-present `(project, file_name)` key is
skipped). -/
theorem generate_report_idempotent (mirror : List (String × String))
    (ledger : List RowKey) :
    report_new_rows mirror (generate_report mirror ledger) = [] ∧
    generate_report mirror (generate_report mirror ledger) =
      generate_report mirror ledger := by
  have hnil : report_new_rows mirror (generate_report mirror ledger) = [] := by
    unfold report_new_rows
    rw [List.filterMap_eq_nil_iff]
    intro df hdf
    by_cases h1 : df.2 = "report.csv"
    · rw [if_pos h1]
    · rw [if_neg h1]
      by_cases h2 : is_archive df.2 = true
      · rw [if_pos h2]
      · rw [if_neg h2]
        have hin : (parse_directory_project df.1, df.2) ∈ generate_report mirror ledger := by
          by_cases h3 : (parse_directory_project df.1, df.2) ∈ ledger
          · exact List.mem_append.mpr (Or.inl h3)
          · refine List.mem_append.mpr (Or.inr ?_)
            unfold report_new_rows
            exact List.mem_filterMap.mpr
              ⟨df, hdf, by rw [if_neg h1, if_neg h2, if_neg h3]⟩
        rw [if_pos hin]
  refine ⟨hnil, ?_⟩
  conv_lhs => rw [generate_report]
  rw [hnil, List.append_nil]

end Report

namespace ValidateSchemas

/-- C7: formatting a byte count `n` with `format_file_size` (powers of 1024,
one decimal place, plain integer for `"B"`) and parsing the result back with
`parse_file_size` recovers `n` to within the rounding granularity of the
chosen unit — the error is at most a tenth of `1024 ^ sizeExp n` (zero in
the `"B"` range) — and in particular `1536` bytes format to `"1.5 KB"` and
parse back to exactly `1536`. -/
theorem parse_format_round_trip :
    (∀ n : ℕ, (10 : ℤ) * |parse_file_size (Report.format_file_size n) - (n : ℤ)| ≤
        1024 ^ Report.sizeExp n) ∧
    parse_file_size (Report.format_file_size 1536) = 1536 := by
  refine ⟨round_trip_bound, ?_⟩
  have hc : ((1536 : ℕ) : ℚ) = (1536 : ℚ) := by norm_num
  have hfmt : Report.format_file_size 1536 = (Py.round1 ((1536 : ℚ) / 1024), "KB") := by
    simp only [Report.format_file_size]
    rw [hc, Report.format_go_div _ _ _ (by norm_num) (by norm_num),
      Report.format_go_unit _ _ _ (by norm_num) (by norm_num) (by decide)]
  have hfl : ⌊(10 * ((1536 : ℚ) / 1024))⌋ = 15 := by
    rw [Int.floor_eq_iff]
    norm_num
  have hrnd : Py.round1 ((1536 : ℚ) / 1024) = 3 / 2 := by
    unfold Py.round1 Py.roundHalfEven
    rw [hfl]
    norm_num
  rw [hfmt, parse_eval_KB, hrnd]
  have he : (3 / 2 : ℚ) * 1024 = 1536 := by norm_num
  rw [he, Py.pyInt, if_pos (by norm_num : (0 : ℚ) ≤ 1536)]
  rw [Int.floor_eq_iff]
  norm_num

/-! Claim C4: which verdicts make the scheduler skip a row. -/

/-- C4 (amended): the scheduler skips a row when `schema_valid` is already
`"True"` or `"False"` (a valid/invalid verdict); but a parseable, locatable
row carrying `"timed out"` or `"out of memory"` is **not** skipped — those
verdicts are re-validated on a rerun. -/
theorem skipRow_spec :
    (∀ r : VRow, r.schema_valid = "True" ∨ r.schema_valid = "False" →
      skipRow r = true) ∧
    (∀ r : VRow, r.parseable = "True" → r.found = true →
      r.schema_valid = "timed out" ∨ r.schema_valid = "out of memory" →
      skipRow r = false) := by
  constructor
  · intro r h
    rcases h with h | h <;> simp [skipRow, h]
  · intro r hp hf hv
    simp only [skipRow]
    rw [hp, hf]
    rcases hv with h | h <;> rw [h] <;> decide

/-- C4 witness: concrete rows exercising both parts of `skipRow_spec`. -/
theorem skipRow_spec_witness :
    skipRow (mkRow "a" (1, "B") "True") = true ∧
      skipRow (mkRow "b" (1, "B") "timed out") = false ∧
      skipRow (mkRow "c" (1, "B") "out of memory") = false :=
  ⟨skipRow_spec.1 _ (Or.inl rfl),
    skipRow_spec.2 _ rfl rfl (Or.inl rfl),
    skipRow_spec.2 _ rfl rfl (Or.inr rfl)⟩

/-- C4 counterexample: a row already carrying the terminal verdict
`"timed out"` is not skipped — the validator is invoked again and its
verdict is overwritten (here to `"True"`), refuting the claim that such
rows are never retried. -/
theorem timed_out_retried :
    skipRow (mkRow "f" (1, "B") "timed out") = false ∧
      (runRows [(mkRow "f" (1, "B") "timed out",
          .returns (true, some "1.2.0", []))]).map (fun r => r.schema_valid) =
        ["True"] := by
  constructor
  · decide
  · decide

/-! Claim C8: the resource-exhaustion halt. -/

theorem processRow_returns_no_halt (r : VRow)
    (res : Bool × Option String × List String) :
    (processRow r (.returns res)).2 = false := by
  simp only [processRow]
  split
  · rfl
  · split <;> rfl

theorem processRow_halt_verdict (r : VRow) (o : CallOutcome)
    (ho : (processRow r o).2 = true) :
    (processRow r o).1.schema_valid = "out of memory" := by
  cases o with
  | returns res => rw [processRow_returns_no_halt] at ho; exact absurd ho (by simp)
  | raises e =>
    cases e with
    | mpTimeoutError =>
      have hms : memSignature SchemaValidate.ExcClass.mpTimeoutError = false := by decide
      simp [processRow, hms] at ho
    | builtinTimeoutError =>
      have hms : memSignature SchemaValidate.ExcClass.builtinTimeoutError = false := by
        decide
      simp [processRow, hms] at ho
    | memoryError m => rfl
    | eofError m => rfl
    | brokenPipeError m => rfl
    | connectionResetError m => rfl
    | otherExc tn m =>
      by_cases hms : memSignature (SchemaValidate.ExcClass.otherExc tn m) = true
      · simp [processRow, hms]
      · have hms' : memSignature (SchemaValidate.ExcClass.otherExc tn m) = false := by
          simpa using hms
        simp [processRow, hms'] at ho

theorem runRows_append_halt (r : VRow) (o : CallOutcome)
    (hr : skipRow r = false) (ho : (processRow r o).2 = true) :
    ∀ (pre post : List (VRow × CallOutcome)), (∀ p ∈ pre, haltsAt p = false) →
      runRows (pre ++ (r, o) :: post) =
        pre.map stepRow ++ (processRow r o).1 :: post.map Prod.fst := by
  intro pre
  induction pre with
  | nil => intro post _; simp [runRows, hr, ho]
  | cons p pre' ih =>
    intro post hpre
    obtain ⟨pr, po⟩ := p
    have hp : haltsAt (pr, po) = false := hpre _ (List.mem_cons_self _ _)
    have hpre' : ∀ q ∈ pre', haltsAt q = false :=
      fun q hq => hpre q (List.mem_cons_of_mem _ hq)
    by_cases hskip : skipRow pr = true
    · simp [runRows, stepRow, hskip, ih post hpre']
    · have hskip' : skipRow pr = false := by simpa using hskip
      have hhalt : (processRow pr po).2 = false := by
        simpa [haltsAt, hskip'] using hp
      simp [runRows, stepRow, hskip', hhalt, ih post hpre']

/-- C8: when the first non-skipped row whose validation produces a
resource-exhaustion outcome (worker `MemoryError`, killed-subprocess pipe
error, or a recognized memory/process failure signature) is reached, the
scheduler marks that row `"out of memory"`, the persisted ledger consists of
the already-processed prefix with its verdicts kept, that row, and the
remaining rows untouched — the run halts without processing them. -/
theorem runRows_halts_on_memory (pre : List (VRow × CallOutcome)) (r : VRow)
    (o : CallOutcome) (post : List (VRow × CallOutcome))
    (hpre : ∀ p ∈ pre, haltsAt p = false)
    (hr : skipRow r = false)
    (ho : (processRow r o).2 = true) :
    runRows (pre ++ (r, o) :: post) =
      pre.map stepRow ++ (processRow r o).1 :: post.map Prod.fst ∧
    (processRow r o).1.schema_valid = "out of memory" :=
  ⟨runRows_append_halt r o hr ho pre post hpre, processRow_halt_verdict r o ho⟩

/-- C8 witness: five rows in ascending size order with a `MemoryError` on the
second-smallest; exactly the first two rows are processed and persisted, the
remaining three stay untouched. -/
theorem runRows_halts_on_memory_witness :
    runRows ([(mkRow "a" (10, "B") "", .returns (true, some "1.1.0", []))] ++
        (mkRow "b" (100, "B") "", .raises (.memoryError "oom")) ::
        [(mkRow "c" (1, "KB") "", .returns (true, none, [])),
         (mkRow "d" (2, "KB") "", .returns (true, none, [])),
         (mkRow "e" (1, "MB") "", .returns (true, none, []))]) =
      [(mkRow "a" (10, "B") "", CallOutcome.returns (true, some "1.1.0", []))].map
          stepRow ++
        (processRow (mkRow "b" (100, "B") "") (.raises (.memoryError "oom"))).1 ::
        [(mkRow "c" (1, "KB") "", CallOutcome.returns (true, none, [])),
         (mkRow "d" (2, "KB") "", CallOutcome.returns (true, none, [])),
         (mkRow "e" (1, "MB") "", CallOutcome.returns (true, none, []))].map Prod.fst ∧
      (processRow (mkRow "b" (100, "B") "")
          (.raises (.memoryError "oom"))).1.schema_valid = "out of memory" :=
  runRows_halts_on_memory _ _ _ _ (by decide) (by decide) (by decide)

/-! Claim C3: the validation timeout path. -/

/-- C3 (code bug): when the worker exceeds the timeout,
`async_result.get` raises `multiprocessing.TimeoutError`, which the
`except TimeoutError:` clause (the builtin class) does **not** catch — so
`schema_validate_with_messages` propagates the exception instead of
returning the timed-out triple, and the caller's generic handler marks the
row `schema_valid = "False"` (signature `"timeouterror"` matches no memory
term), not `"timed out"` as specified. -/
theorem timeout_misclassified (w : SchemaValidate.WorkerRun) (r : VRow)
    (hw : SchemaValidate.VALIDATION_TIMEOUT < w.elapsed) :
    SchemaValidate.schema_validate_with_messages SchemaValidate.VALIDATION_TIMEOUT w =
      .error .mpTimeoutError ∧
    (processRow r (.raises .mpTimeoutError)).1.schema_valid = "False" ∧
    (processRow r (.raises .mpTimeoutError)).1.schema_valid ≠ "timed out" := by
  have hms : memSignature SchemaValidate.ExcClass.mpTimeoutError = false := by decide
  have h2 : (processRow r (.raises .mpTimeoutError)).1.schema_valid = "False" := by
    simp [processRow, hms]
  refine ⟨?_, h2, by rw [h2]; decide⟩
  rw [SchemaValidate.schema_validate_with_messages, if_neg (by omega),
    if_neg (by decide)]

/-- C3 witness: a 601-second worker run against the default 600-second
timeout, instantiating `timeout_misclassified`. -/
theorem timeout_misclassified_witness :
    SchemaValidate.schema_validate_with_messages SchemaValidate.VALIDATION_TIMEOUT
        ⟨601, (true, none, [])⟩ = .error .mpTimeoutError ∧
    (processRow (mkRow "w" (1, "B") "")
        (.raises .mpTimeoutError)).1.schema_valid = "False" ∧
    (processRow (mkRow "w" (1, "B") "")
        (.raises .mpTimeoutError)).1.schema_valid ≠ "timed out" :=
  timeout_misclassified ⟨601, (true, none, [])⟩ _ (by decide)

end ValidateSchemas

namespace SchemaValidate

/-! Claim C10: odd schema-location token counts. -/

/-- C10: for every document whose effective schema location is truthy but
splits into an odd number of whitespace-separated tokens — in particular a
`noNamespaceSchemaLocation` holding a single URL — the worker reports
`"Invalid schema location format."` and returns unsuccessfully without
opening any schema file (the ghost `consulted` field is `none` and the
result does not depend on the schema store at all). -/
theorem odd_schema_location_invalid (doc : XmlDoc) (store store' : String → Bool)
    (ht : Py.pyTruthy (effectiveLocation doc) = true)
    (hodd : (wsTokens ((effectiveLocation doc).getD "")).length % 2 = 1) :
    schema_validate_impl doc store =
      .ok ⟨false, none, ["Invalid schema location format."], none⟩ ∧
    schema_validate_impl doc store = schema_validate_impl doc store' := by
  have key : ∀ st : String → Bool, schema_validate_impl doc st =
      .ok ⟨false, none, ["Invalid schema location format."], none⟩ := by
    intro st
    simp only [schema_validate_impl]
    rw [if_neg (by simp [ht]), if_pos (by omega)]
  exact ⟨key store, by rw [key store, key store']⟩

/-- C10 witness: a document with a single-URL `noNamespaceSchemaLocation`,
checked against two different schema stores. -/
theorem odd_schema_location_invalid_witness :
    schema_validate_impl
        { schemaLocation := none,
          noNamespaceSchemaLocation :=
            some "https://example.org/schema/mzIdentML1.2.0.xsd",
          validates := fun _ => true, errors := [] } (fun _ => true) =
      .ok ⟨false, none, ["Invalid schema location format."], none⟩ ∧
    schema_validate_impl
        { schemaLocation := none,
          noNamespaceSchemaLocation :=
            some "https://example.org/schema/mzIdentML1.2.0.xsd",
          validates := fun _ => true, errors := [] } (fun _ => true) =
      schema_validate_impl
        { schemaLocation := none,
          noNamespaceSchemaLocation :=
            some "https://example.org/schema/mzIdentML1.2.0.xsd",
          validates := fun _ => true, errors := [] } (fun _ => false) :=
  odd_schema_location_invalid _ _ _ (by decide) (by decide)

end SchemaValidate
